import Mathlib

/-!
Verification of the AHP validator numeric core (`src/app.py`).

Modelling conventions:
* Python/numpy floating-point numbers are modelled as real numbers `ℝ`
  with exact arithmetic.
* A numpy array is modelled as a `List ℝ`; a matrix as `List (List ℝ)`.
* Python code paths that raise an exception are modelled with
  `Except String`; the string payloads are short labels standing for the
  Python exception messages (their exact text is irrelevant to the
  properties proved here).
* numpy ELEMENTWISE division by zero produces `inf`/`nan` and raises no
  exception; in the model, real division by zero yields `0` (the Lean
  convention).  No theorem below asserts the value of a quantity that
  numpy would make `inf`/`nan`: such quantities appear only under
  hypotheses that rule the degenerate division out, or are simply not
  mentioned in the statement.
* Ragged (non-rectangular) matrices make `np.array(matrix, dtype=float)`
  raise in Python; this constructor-level failure is not modelled, and
  every theorem that cares carries a rectangularity/squareness
  hypothesis instead.
-/

/-- Python's `max` over a list (the callers in `src/app.py` only apply it
to non-empty lists; the `[]` case, where Python would raise `ValueError`,
is given the unreachable default `0`). -/
noncomputable def listMax : List ℝ → ℝ
  | [] => 0
  | a :: as => as.foldl max a

/-- Dot product of two equal-length vectors, as computed by `np.dot` on
1-d arrays. -/
noncomputable def dotList (a b : List ℝ) : ℝ :=
  (List.zipWith (· * ·) a b).sum

/-- `np.dot(matrix, v)` for a 2-d matrix and 1-d vector: one dot product
per row. -/
noncomputable def matVec (m : List (List ℝ)) (v : List ℝ) : List ℝ :=
  m.map (fun row => dotList row v)

/-- `np.max(np.abs(a - b))` for equal-length 1-d arrays: the maximum
elementwise absolute difference.  Used by `power_method` (line 63) and by
`validate_with_reference` (line 112) in `src/app.py`. -/
noncomputable def maxAbsDiff (a b : List ℝ) : ℝ :=
  listMax (List.zipWith (fun x y => |x - y|) a b)

/-- `RANDOM_INDEX.get(n, 1.49)` — the Saaty (1980) random-index table of
`src/app.py` lines 25-29, with the dictionary's `.get` default `1.49`
(line 89) for every key not in the table (`n = 0` and `n > 15`). -/
noncomputable def random_index_get : ℕ → ℝ
  | 1 => 0
  | 2 => 0
  | 3 => 0.58
  | 4 => 0.90
  | 5 => 1.12
  | 6 => 1.24
  | 7 => 1.32
  | 8 => 1.41
  | 9 => 1.45
  | 10 => 1.49
  | 11 => 1.52
  | 12 => 1.54
  | 13 => 1.56
  | 14 => 1.58
  | 15 => 1.59
  | _ => 1.49

/-- `geometric_mean_method` of `src/app.py` lines 31-46.
Row products, `n`-th root (`np.power(row_products, 1/n)`, real power),
then normalization by the sum.  The function performs no positivity
check on the entries.  For an empty matrix Python raises (numpy
`AxisError` from `np.prod(matrix, axis=1)` on a 1-d empty array), which
is modelled as the `.error` branch; for every non-empty rectangular
matrix the Python code raises nothing and returns the weight array. -/
noncomputable def geometric_mean_method (matrix : List (List ℝ)) :
    Except String (List ℝ) :=
  let n := matrix.length
  if n = 0 then .error "axis 1 is out of bounds for array of dimension 1"
  else
    let row_products := matrix.map List.prod
    let geometric_means := row_products.map (fun p => p ^ ((1 : ℝ) / (n : ℝ)))
    let weights := geometric_means.map (fun g => g / geometric_means.sum)
    .ok weights

/-- The `for _ in range(max_iter)` loop of `power_method`
(`src/app.py` lines 59-65), with the remaining iteration budget as fuel.
Each iteration computes `v_new = np.dot(matrix, v)`, renormalizes it to
sum 1, breaks early when `np.max(np.abs(v_new - v)) < tolerance`, and
otherwise continues from `v_new`.  The fuel-0 base returns the current
iterate: it is reached only after the final iteration, so the returned
value is always the last computed `v_new`, matching `return v_new` on
line 67. -/
noncomputable def power_loop (matrix : List (List ℝ)) (tolerance : ℝ) :
    ℕ → List ℝ → List ℝ
  | 0, v => v
  | k + 1, v =>
    let u := matVec matrix v
    let v_new := u.map (fun x => x / u.sum)
    if maxAbsDiff v_new v < tolerance then v_new
    else power_loop matrix tolerance k v_new

/-- `power_method` of `src/app.py` lines 48-67 (source defaults:
`max_iter=100`, `tolerance=1e-6`; call sites below pass them
explicitly).  The initial vector is `np.ones(n) / n`.  When
`max_iter = 0` the loop body never runs and `return v_new` on line 67
references a variable that was never assigned, so Python raises
`UnboundLocalError`; this is the `.error` branch. -/
noncomputable def power_method (matrix : List (List ℝ)) (max_iter : ℕ)
    (tolerance : ℝ) : Except String (List ℝ) :=
  let n := matrix.length
  let v := List.replicate n ((1 : ℝ) / (n : ℝ))
  if max_iter = 0 then
    .error "cannot access local variable v_new where it is not associated with a value"
  else .ok (power_loop matrix tolerance max_iter v)

/-- Result record of `calculate_consistency` (`src/app.py` lines 92-96). -/
structure ConsistencyResult where
  lambda_max : ℝ
  ci : ℝ
  cr : ℝ

/-- `calculate_consistency` of `src/app.py` lines 69-96.
`weighted_sum = np.dot(matrix, weights)`, `lambda_values` the
elementwise quotient, `lambda_max = np.mean(lambda_values)` (sum divided
by the array length).  For `n <= 2` both CI and CR are `0`; otherwise
`ci = (lambda_max - n) / (n - 1)` and `cr = ci / ri` guarded by
`if ri > 0`.  The function checks nothing about the weights: a zero
weight makes numpy emit `inf`/`nan` in `lambda_values` without raising
(see the modelling note on division at the top of this file). -/
noncomputable def calculate_consistency (matrix : List (List ℝ))
    (weights : List ℝ) : ConsistencyResult :=
  let n := matrix.length
  let weighted_sum := matVec matrix weights
  let lambda_values := List.zipWith (· / ·) weighted_sum weights
  let lambda_max := lambda_values.sum / (lambda_values.length : ℝ)
  if n ≤ 2 then
    { lambda_max := lambda_max, ci := 0, cr := 0 }
  else
    let ci := (lambda_max - (n : ℝ)) / ((n : ℝ) - 1)
    let ri := random_index_get n
    let cr := if 0 < ri then ci / ri else 0
    { lambda_max := lambda_max, ci := ci, cr := cr }

/-- Result record of `validate_with_reference` (`src/app.py` lines
114-122).  The two boolean-valued entries of the Python dict are
modelled as propositions. -/
structure RefResult where
  weights : List ℝ
  weights_power_method : List ℝ
  lambda_max : ℝ
  ci : ℝ
  cr : ℝ
  method_convergence : ℝ
  methods_agree : Prop

/-- `validate_with_reference` of `src/app.py` lines 98-122: geometric
mean weights, then power-method weights (with the source's default
arguments `max_iter=100`, `tolerance=1e-6`), then consistency from the
geometric-mean weights, then the cross-method agreement check
`np.max(np.abs(weights_gm - weights_pm)) < 0.01`.  A Python exception
raised by either sub-computation propagates out, modelled by the
`.error` matches.  The `items` parameter is unused by the source
function and is kept only for signature fidelity. -/
noncomputable def validate_with_reference (matrix : List (List ℝ))
    (items : List String) : Except String RefResult :=
  match geometric_mean_method matrix with
  | .error e => .error e
  | .ok weights_gm =>
    match power_method matrix 100 (1e-6) with
    | .error e => .error e
    | .ok weights_pm =>
      let consistency := calculate_consistency matrix weights_gm
      let method_diff := maxAbsDiff weights_gm weights_pm
      .ok { weights := weights_gm
            weights_power_method := weights_pm
            lambda_max := consistency.lambda_max
            ci := consistency.ci
            cr := consistency.cr
            method_convergence := method_diff
            methods_agree := method_diff < 0.01 }

/-- The comparison block of the `/validate` endpoint (`src/app.py`
lines 208-224 plus the `differences` fields of the response).  Boolean
flags are modelled as propositions. -/
structure ComparisonOutcome where
  diff_weights : List ℝ
  max_weight_diff : ℝ
  cr_diff : ℝ
  lambda_diff : ℝ
  weights_valid : Prop
  cr_valid : Prop
  is_valid : Prop

/-- Lines 208-224 of `src/app.py` (inside the `/validate` handler),
extracted as a function of the candidate data and the reference
(`sdk_*`) data it is compared against.  Python truthiness is modelled
literally: `if your_weights:` is non-emptiness of the list, and
`... if your_cr else 0` / `... if your_lambda else 0` test the float
against zero, so a candidate CR (or λ) equal to `0` makes the
corresponding difference `0` without looking at the reference value. -/
noncomputable def compare_results (your_weights sdk_weights : List ℝ)
    (your_cr sdk_cr your_lambda sdk_lambda : ℝ) : ComparisonOutcome :=
  let diff_weights :=
    if your_weights ≠ [] then
      List.zipWith (fun a b => |a - b|) your_weights sdk_weights
    else []
  let max_diff_weights :=
    if your_weights ≠ [] then
      (if diff_weights ≠ [] then listMax diff_weights else 0)
    else 0
  let diff_cr := if your_cr ≠ 0 then |your_cr - sdk_cr| else 0
  let diff_lambda := if your_lambda ≠ 0 then |your_lambda - sdk_lambda| else 0
  let tolerance := (0.001 : ℝ)
  let weights_valid := max_diff_weights < tolerance
  let cr_valid := diff_cr < tolerance
  let is_valid := weights_valid ∧ cr_valid
  { diff_weights := diff_weights
    max_weight_diff := max_diff_weights
    cr_diff := diff_cr
    lambda_diff := diff_lambda
    weights_valid := weights_valid
    cr_valid := cr_valid
    is_valid := is_valid }

/-- Body of a successful `/validate` response: the comparison outcome
and the reference result it was computed from (`src/app.py` lines
226-254; the request echo and static fields carry no logic and are
omitted). -/
structure ValidateSuccess where
  validation : ComparisonOutcome
  reference : RefResult

/-- The three kinds of HTTP response the `/validate` handler can
produce: the 400 client error of lines 180-190, the 500 server error of
the `except` block (lines 258-262), and the 200 success response. -/
inductive ValidateResponse where
  | clientError (msg : String)
  | serverError (msg : String)
  | success (body : ValidateSuccess)

/-- Holds exactly of the 400 responses of the `/validate` handler. -/
def ValidateResponse.isClientError : ValidateResponse → Prop
  | .clientError _ => True
  | _ => False

/-- Holds exactly of the 200 responses of the `/validate` handler. -/
def ValidateResponse.isSuccess : ValidateResponse → Prop
  | .success _ => True
  | _ => False

/-- The `/validate` endpoint (`src/app.py` lines 162-262) for a request
whose JSON body is present, with fields already extracted (missing
fields default to `[]` / `0` as on lines 183-187).  The only input
validation in the source is `if len(matrix) == 0 or len(items) == 0`
(line 189), answered 400; everything else runs the numeric core, whose
exceptions the `except` block turns into a 500.  The `ahpy` branch is
absent: the model takes `AHPY_AVAILABLE = False` (the library import
fails), under which `ahpy_result` is always `None` and carries no
logic. -/
noncomputable def validate_route (matrix : List (List ℝ))
    (items : List String) (your_weights : List ℝ)
    (your_cr your_lambda : ℝ) : ValidateResponse :=
  if matrix.length = 0 ∨ items.length = 0 then
    .clientError "Matrix and items are required"
  else
    match validate_with_reference matrix items with
    | .error e => .serverError e
    | .ok ref =>
      .success
        { validation :=
            compare_results your_weights ref.weights your_cr ref.cr
              your_lambda ref.lambda_max
          reference := ref }

/-- One element of the `matrices` list of a `/validate-batch` request
(`src/app.py` lines 277-282), with the `.get` defaults already
applied. -/
structure BatchItem where
  matrix : List (List ℝ)
  items : List String
  your_weights : List ℝ
  your_cr : ℝ
  name : String

/-- One element of the `results` list of a `/validate-batch` response
(`src/app.py` lines 304-313). -/
structure BatchEntry where
  name : String
  is_valid : Prop
  your_weights : List ℝ
  sdk_weights : List ℝ
  your_cr : ℝ
  sdk_cr : ℝ
  max_weight_diff : ℝ
  cr_diff : ℝ

/-- The body of the `/validate-batch` loop for one item (`src/app.py`
lines 284-313).  Unlike the `/validate` handler, the batch version
computes `diff_cr = abs(your_cr - sdk_cr)` with no truthiness guard
(line 298).  An exception from `validate_with_reference` propagates
(there is no per-item `try`). -/
noncomputable def validate_batch_item (item : BatchItem) :
    Except String BatchEntry :=
  match validate_with_reference item.matrix item.items with
  | .error e => .error e
  | .ok ref =>
    let sdk_weights := ref.weights
    let sdk_cr := ref.cr
    let diff_weights :=
      if item.your_weights ≠ [] then
        List.zipWith (fun a b => |a - b|) item.your_weights sdk_weights
      else []
    let max_diff :=
      if item.your_weights ≠ [] then listMax diff_weights else 0
    let diff_cr := |item.your_cr - sdk_cr|
    let is_valid := max_diff < 0.001 ∧ diff_cr < 0.001
    .ok { name := item.name
          is_valid := is_valid
          your_weights := item.your_weights
          sdk_weights := sdk_weights
          your_cr := item.your_cr
          sdk_cr := sdk_cr
          max_weight_diff := max_diff
          cr_diff := diff_cr }

/-- The `for item in matrices` loop of `/validate-batch` (`src/app.py`
lines 277-313).  The loop runs inside the single `try` of the handler,
so the first exception aborts the whole traversal: no result computed
before it survives and no later item is processed. -/
noncomputable def validate_batch_loop :
    List BatchItem → Except String (List BatchEntry)
  | [] => .ok []
  | item :: rest =>
    match validate_batch_item item with
    | .error e => .error e
    | .ok entry =>
      match validate_batch_loop rest with
      | .error e => .error e
      | .ok entries => .ok (entry :: entries)

/-- Body of a successful `/validate-batch` response (`src/app.py` lines
315-322). -/
structure BatchResponse where
  all_valid : Prop
  total : ℕ
  passed : ℕ
  failed : ℕ
  results : List BatchEntry

open Classical in
/-- The `/validate-batch` endpoint (`src/app.py` lines 264-328).  A
Python exception anywhere in the loop is caught only by the
handler-level `except`, producing the 500 error response (`.error`
here); otherwise the tallies of lines 316-320 are computed over the
collected results (`all_valid` is the running conjunction of line
301-302). -/
noncomputable def validate_batch (matrices : List BatchItem) :
    Except String BatchResponse :=
  match validate_batch_loop matrices with
  | .error e => .error e
  | .ok results =>
    .ok { all_valid := ∀ r ∈ results, r.is_valid
          total := results.length
          passed := results.countP (fun r => decide r.is_valid)
          failed := results.countP (fun r => ! decide r.is_valid)
          results := results }

/-! ### Helper lemmas about the list primitives -/

lemma sum_map_div (l : List ℝ) (s : ℝ) :
    (l.map (fun x => x / s)).sum = l.sum / s := by
  induction l with
  | nil => simp
  | cons a t ih => simp [ih, add_div]

lemma matVec_length (m : List (List ℝ)) (v : List ℝ) :
    (matVec m v).length = m.length := by
  simp [matVec]

lemma matVec_getD (m : List (List ℝ)) (v : List ℝ) (i : ℕ)
    (h : i < m.length) :
    (matVec m v).getD i 0 = dotList (m.getD i []) v := by
  unfold matVec
  rw [List.getD_eq_getElem _ _ (by simpa using h),
    List.getD_eq_getElem _ _ h]
  simp

lemma sum_zipWith_getD (f : ℝ → ℝ → ℝ) :
    ∀ as bs : List ℝ, as.length = bs.length →
      (List.zipWith f as bs).sum =
        ∑ i ∈ Finset.range as.length, f (as.getD i 0) (bs.getD i 0) := by
  intro as
  induction as with
  | nil => intro bs _; simp
  | cons a as ih =>
    intro bs h
    cases bs with
    | nil => simp at h
    | cons b bs =>
      simp only [List.zipWith_cons_cons, List.sum_cons, List.length_cons]
      rw [Finset.sum_range_succ']
      simp only [List.getD_cons_succ, List.getD_cons_zero]
      rw [ih bs (by simpa using h)]
      ring

lemma foldl_max_zero : ∀ l : List ℝ, (∀ x ∈ l, x = 0) → l.foldl max 0 = 0 := by
  intro l
  induction l with
  | nil => simp
  | cons a t ih =>
    intro h
    have ha : a = 0 := h a (by simp)
    simp only [List.foldl_cons, ha, max_self]
    exact ih fun x hx => h x (by simp [hx])

lemma listMax_of_all_zero (l : List ℝ) (h : ∀ x ∈ l, x = 0) :
    listMax l = 0 := by
  cases l with
  | nil => rfl
  | cons a t =>
    have ha : a = 0 := h a (by simp)
    simp only [listMax, ha]
    exact foldl_max_zero t fun x hx => h x (by simp [hx])

lemma listMax_replicate_zero (n : ℕ) :
    listMax (List.replicate n (0 : ℝ)) = 0 :=
  listMax_of_all_zero _ fun x hx => List.eq_of_mem_replicate hx

lemma maxAbsDiff_self (w : List ℝ) : maxAbsDiff w w = 0 := by
  unfold maxAbsDiff
  apply listMax_of_all_zero
  intro x hx
  rw [List.zipWith_same] at hx
  simp only [List.mem_map] at hx
  obtain ⟨a, _, rfl⟩ := hx
  simp

lemma dotList_nonneg : ∀ a b : List ℝ, (∀ x ∈ a, 0 ≤ x) → (∀ x ∈ b, 0 ≤ x) →
    0 ≤ dotList a b := by
  intro a
  induction a with
  | nil => intro b _ _; simp [dotList]
  | cons x xs ih =>
    intro b ha hb
    cases b with
    | nil => simp [dotList]
    | cons y ys =>
      have h1 : 0 ≤ x * y :=
        mul_nonneg (ha x (by simp)) (hb y (by simp))
      have h2 : 0 ≤ dotList xs ys :=
        ih ys (fun z hz => ha z (by simp [hz])) (fun z hz => hb z (by simp [hz]))
      simpa [dotList] using add_nonneg h1 h2

lemma dotList_pos (a b : List ℝ) (ha : ∀ x ∈ a, 0 < x) (hb : ∀ x ∈ b, 0 < x)
    (hl : a.length = b.length) (hne : a ≠ []) : 0 < dotList a b := by
  cases a with
  | nil => exact absurd rfl hne
  | cons x xs =>
    cases b with
    | nil => simp at hl
    | cons y ys =>
      have h1 : 0 < x * y := mul_pos (ha x (by simp)) (hb y (by simp))
      have h2 : 0 ≤ dotList xs ys :=
        dotList_nonneg xs ys (fun z hz => le_of_lt (ha z (by simp [hz])))
          (fun z hz => le_of_lt (hb z (by simp [hz])))
      simpa [dotList] using add_pos_of_pos_of_nonneg h1 h2

/-! ### Helper lemmas about the random index lookup -/

lemma random_index_get_gt15 (n : ℕ) (h : 15 < n) :
    random_index_get n = 1.49 := by
  obtain ⟨k, rfl⟩ : ∃ k, n = k + 16 := ⟨n - 16, by omega⟩
  rfl

lemma random_index_get_pos (n : ℕ) (h : 2 < n) : 0 < random_index_get n := by
  by_cases h15 : n ≤ 15
  · interval_cases n <;> norm_num [random_index_get]
  · rw [random_index_get_gt15 n (by omega)]
    norm_num

/-! ### Invariants of the two weight-estimation methods -/

lemma matVec_pos (m : List (List ℝ)) (n : ℕ) (hn : m.length = n)
    (hsq : ∀ row ∈ m, row.length = n)
    (hpos : ∀ row ∈ m, ∀ x ∈ row, 0 < x)
    (h1 : 1 ≤ n) (v : List ℝ) (hv : v.length = n)
    (hvpos : ∀ x ∈ v, 0 < x) :
    ∀ x ∈ matVec m v, 0 < x := by
  intro x hx
  simp only [matVec, List.mem_map] at hx
  obtain ⟨row, hrow, rfl⟩ := hx
  exact dotList_pos row v (hpos row hrow) hvpos
    (by rw [hsq row hrow, hv])
    (by intro hnil; have := hsq row hrow; rw [hnil] at this; simp at this; omega)

lemma normalized_invariant (u : List ℝ) (n : ℕ) (hu : u.length = n)
    (h1 : 1 ≤ n) (hupos : ∀ x ∈ u, 0 < x) :
    (u.map (fun x => x / u.sum)).length = n ∧
      (∀ x ∈ u.map (fun x => x / u.sum), 0 < x) ∧
      (u.map (fun x => x / u.sum)).sum = 1 := by
  have hne : u ≠ [] := by
    intro h; rw [h] at hu; simp at hu; omega
  have hsum : 0 < u.sum := List.sum_pos u hupos hne
  refine ⟨by simpa using hu, ?_, ?_⟩
  · intro x hx
    simp only [List.mem_map] at hx
    obtain ⟨a, ha, rfl⟩ := hx
    exact div_pos (hupos a ha) hsum
  · rw [sum_map_div]
    exact div_self (ne_of_gt hsum)

lemma power_loop_inv (m : List (List ℝ)) (n : ℕ) (hn : m.length = n)
    (hsq : ∀ row ∈ m, row.length = n)
    (hpos : ∀ row ∈ m, ∀ x ∈ row, 0 < x)
    (h1 : 1 ≤ n) (tol : ℝ) :
    ∀ (k : ℕ) (v : List ℝ), v.length = n → (∀ x ∈ v, 0 < x) → v.sum = 1 →
      (power_loop m tol k v).length = n ∧
        (∀ x ∈ power_loop m tol k v, 0 < x) ∧
        (power_loop m tol k v).sum = 1 := by
  intro k
  induction k with
  | zero =>
    intro v hv hvpos hvsum
    exact ⟨hv, hvpos, hvsum⟩
  | succ k ih =>
    intro v hv hvpos hvsum
    have humem : ∀ x ∈ matVec m v, 0 < x :=
      matVec_pos m n hn hsq hpos h1 v hv hvpos
    have hulen : (matVec m v).length = n := by rw [matVec_length, hn]
    have hstep := normalized_invariant (matVec m v) n hulen h1 humem
    simp only [power_loop]
    split
    · exact hstep
    · exact ih _ hstep.1 hstep.2.1 hstep.2.2

lemma initial_vector_invariant (n : ℕ) (h1 : 1 ≤ n) :
    (List.replicate n ((1 : ℝ) / (n : ℝ))).length = n ∧
      (∀ x ∈ List.replicate n ((1 : ℝ) / (n : ℝ)), 0 < x) ∧
      (List.replicate n ((1 : ℝ) / (n : ℝ))).sum = 1 := by
  have hnpos : (0 : ℝ) < (n : ℝ) := by positivity
  refine ⟨by simp, ?_, ?_⟩
  · intro x hx
    rw [List.eq_of_mem_replicate hx]
    positivity
  · rw [List.sum_replicate, nsmul_eq_mul]
    field_simp

lemma power_method_ok (m : List (List ℝ)) (n : ℕ) (hn : m.length = n)
    (hsq : ∀ row ∈ m, row.length = n)
    (hpos : ∀ row ∈ m, ∀ x ∈ row, 0 < x)
    (h1 : 1 ≤ n) (k : ℕ) (hk : 1 ≤ k) (tol : ℝ) :
    ∃ v, power_method m k tol = .ok v ∧ v.length = n ∧
      (∀ x ∈ v, 0 < x) ∧ v.sum = 1 := by
  subst hn
  have hinit := initial_vector_invariant m.length h1
  refine ⟨power_loop m tol k
    (List.replicate m.length ((1 : ℝ) / (m.length : ℝ))), ?_, ?_⟩
  · unfold power_method
    rw [if_neg (by omega)]
  · exact power_loop_inv m m.length rfl hsq hpos h1 tol k _
      hinit.1 hinit.2.1 hinit.2.2

lemma geometric_mean_eq (m : List (List ℝ)) (h : m.length ≠ 0) :
    geometric_mean_method m =
      .ok (((m.map List.prod).map
          (fun p => p ^ ((1 : ℝ) / (m.length : ℝ)))).map
        (fun g => g / ((m.map List.prod).map
          (fun p => p ^ ((1 : ℝ) / (m.length : ℝ)))).sum)) := by
  unfold geometric_mean_method
  rw [if_neg h]

lemma geometric_mean_total (m : List (List ℝ)) (h : m.length ≠ 0) :
    ∃ w, geometric_mean_method m = .ok w ∧ w.length = m.length := by
  exact ⟨_, geometric_mean_eq m h, by simp⟩

lemma geometric_mean_ok (m : List (List ℝ)) (n : ℕ) (hn : m.length = n)
    (h1 : 1 ≤ n) (hpos : ∀ row ∈ m, ∀ x ∈ row, 0 < x) :
    ∃ w, geometric_mean_method m = .ok w ∧ w.length = n ∧
      (∀ x ∈ w, 0 < x) ∧ w.sum = 1 := by
  subst hn
  have hgpos : ∀ g ∈ (m.map List.prod).map
      (fun p => p ^ ((1 : ℝ) / (m.length : ℝ))), 0 < g := by
    intro g hg
    simp only [List.mem_map] at hg
    obtain ⟨p, hp, rfl⟩ := hg
    obtain ⟨row, hrow, rfl⟩ := hp
    exact Real.rpow_pos_of_pos (List.prod_pos (hpos row hrow)) _
  have hglen : ((m.map List.prod).map
      (fun p => p ^ ((1 : ℝ) / (m.length : ℝ)))).length = m.length := by simp
  have hgne : (m.map List.prod).map
      (fun p => p ^ ((1 : ℝ) / (m.length : ℝ))) ≠ [] := by
    intro hnil; rw [hnil] at hglen; simp at hglen; omega
  have hinv := normalized_invariant _ m.length hglen h1 hgpos
  exact ⟨_, geometric_mean_eq m (by omega), hinv.1, hinv.2.1, hinv.2.2⟩

lemma validate_with_reference_ok (m : List (List ℝ)) (items : List String)
    (h : m.length ≠ 0) :
    ∃ r, validate_with_reference m items = .ok r := by
  obtain ⟨w, hw, _⟩ := geometric_mean_total m h
  have hp : power_method m 100 (1e-6) =
      .ok (power_loop m (1e-6) 100
        (List.replicate m.length ((1 : ℝ) / (m.length : ℝ)))) := by
    unfold power_method
    rw [if_neg (by omega)]
  unfold validate_with_reference
  rw [hw, hp]
  exact ⟨_, rfl⟩

lemma validate_batch_loop_append_error (bad : BatchItem)
    (post : List BatchItem) (e : String)
    (hbad : validate_batch_item bad = .error e) :
    ∀ pre : List BatchItem,
      (∀ i ∈ pre, ∃ entry, validate_batch_item i = .ok entry) →
      validate_batch_loop (pre ++ bad :: post) = .error e := by
  intro pre
  induction pre with
  | nil =>
    intro _
    simp only [List.nil_append, validate_batch_loop]
    rw [hbad]
  | cons i pre ih =>
    intro hpre
    obtain ⟨entry, hentry⟩ := hpre i (by simp)
    have hrest : validate_batch_loop (pre ++ bad :: post) = .error e :=
      ih fun j hj => hpre j (by simp [hj])
    rw [List.cons_append]
    simp only [validate_batch_loop]
    rw [hentry, hrest]

/-! ### Claim theorems: consistency analysis -/

lemma lambda_max_eq (m : List (List ℝ)) (w : List ℝ)
    (hw : w.length = m.length) :
    (calculate_consistency m w).lambda_max =
      (∑ i ∈ Finset.range m.length, dotList (m.getD i []) w / w.getD i 0) /
        (m.length : ℝ) := by
  have hlen : (matVec m w).length = w.length := by rw [matVec_length, hw]
  have hsum : (List.zipWith (· / ·) (matVec m w) w).sum =
      ∑ i ∈ Finset.range m.length, dotList (m.getD i []) w / w.getD i 0 := by
    rw [sum_zipWith_getD _ _ _ hlen, matVec_length]
    exact Finset.sum_congr rfl fun i hi =>
      congrArg (· / w.getD i 0) (matVec_getD m w i (Finset.mem_range.mp hi))
  have hlen2 : (List.zipWith (· / ·) (matVec m w) w).length = m.length := by
    rw [List.length_zipWith, matVec_length, hw, min_self]
  simp only [calculate_consistency]
  split
  · dsimp only
    rw [hsum, hlen2]
  · dsimp only
    rw [hsum, hlen2]

/-- C1: for a square matrix and a weight vector of matching length `n`
with all weights non-zero, `calculate_consistency` computes `lambda_max`
as the arithmetic mean of the `n` ratios `(matrix · weights)[i] /
weights[i]`; for `n > 2` it returns `CI = (lambda_max - n) / (n - 1)`
and `CR = CI / RI(n)`, where `RI` is the fixed Saaty table entry
(`random_index_get`, transcribed from `RANDOM_INDEX` in the source) for
`1 ≤ n ≤ 15` and `1.49` for every `n > 15`. -/
theorem calculate_consistency_formulas (m : List (List ℝ)) (w : List ℝ)
    (n : ℕ) (hn : m.length = n) (hsq : ∀ row ∈ m, row.length = n)
    (hw : w.length = n) (hwz : ∀ x ∈ w, x ≠ 0) :
    (calculate_consistency m w).lambda_max =
      (∑ i ∈ Finset.range n, dotList (m.getD i []) w / w.getD i 0) /
        (n : ℝ) ∧
    (2 < n →
      (calculate_consistency m w).ci =
        ((∑ i ∈ Finset.range n, dotList (m.getD i []) w / w.getD i 0) /
            (n : ℝ) - (n : ℝ)) / ((n : ℝ) - 1) ∧
      (calculate_consistency m w).cr =
        (calculate_consistency m w).ci / random_index_get n) ∧
    (∀ k, 15 < k → random_index_get k = 1.49) := by
  subst hn
  have hlam := lambda_max_eq m w hw
  refine ⟨hlam, fun h2 => ?_, random_index_get_gt15⟩
  have hci : (calculate_consistency m w).ci =
      ((∑ i ∈ Finset.range m.length, dotList (m.getD i []) w / w.getD i 0) /
        (m.length : ℝ) - (m.length : ℝ)) / ((m.length : ℝ) - 1) := by
    rw [← hlam]
    simp only [calculate_consistency]
    rw [if_neg (by omega)]
  refine ⟨hci, ?_⟩
  have hri := random_index_get_pos m.length h2
  simp only [calculate_consistency]
  rw [if_neg (by omega), if_pos hri]

/-- Witness for C1 at the 3×3 all-ones matrix with weights `[1, 1, 1]`. -/
theorem calculate_consistency_formulas_witness :
    (([[(1 : ℝ), 1, 1], [1, 1, 1], [1, 1, 1]] :
        List (List ℝ)).length = 3) ∧
    (∀ row ∈ ([[(1 : ℝ), 1, 1], [1, 1, 1], [1, 1, 1]] : List (List ℝ)),
      row.length = 3) ∧
    (([(1 : ℝ), 1, 1] : List ℝ).length = 3) ∧
    (∀ x ∈ ([(1 : ℝ), 1, 1] : List ℝ), x ≠ 0) ∧
    ((calculate_consistency [[(1 : ℝ), 1, 1], [1, 1, 1], [1, 1, 1]]
        [1, 1, 1]).lambda_max =
      (∑ i ∈ Finset.range 3,
        dotList (([[(1 : ℝ), 1, 1], [1, 1, 1], [1, 1, 1]] :
          List (List ℝ)).getD i []) [1, 1, 1] /
          (([(1 : ℝ), 1, 1] : List ℝ).getD i 0)) / (3 : ℝ) ∧
     (2 < 3 →
      (calculate_consistency [[(1 : ℝ), 1, 1], [1, 1, 1], [1, 1, 1]]
          [1, 1, 1]).ci =
        ((∑ i ∈ Finset.range 3,
          dotList (([[(1 : ℝ), 1, 1], [1, 1, 1], [1, 1, 1]] :
            List (List ℝ)).getD i []) [1, 1, 1] /
            (([(1 : ℝ), 1, 1] : List ℝ).getD i 0)) / (3 : ℝ) - (3 : ℝ)) /
          ((3 : ℝ) - 1) ∧
      (calculate_consistency [[(1 : ℝ), 1, 1], [1, 1, 1], [1, 1, 1]]
          [1, 1, 1]).cr =
        (calculate_consistency [[(1 : ℝ), 1, 1], [1, 1, 1], [1, 1, 1]]
          [1, 1, 1]).ci / random_index_get 3) ∧
     (∀ k, 15 < k → random_index_get k = 1.49)) :=
  ⟨by simp, by simp, by simp, by simp,
    calculate_consistency_formulas _ _ 3 (by simp) (by simp) (by simp)
      (by simp)⟩

/-- C5: for every matrix of size `n ≤ 2` and every weight vector,
`calculate_consistency` returns `CI = 0` and `CR = 0` regardless of the
matrix entries. -/
theorem consistency_small_n_zero (m : List (List ℝ)) (w : List ℝ)
    (h : m.length ≤ 2) :
    (calculate_consistency m w).ci = 0 ∧
      (calculate_consistency m w).cr = 0 := by
  simp only [calculate_consistency]
  rw [if_pos h]
  exact ⟨rfl, rfl⟩

/-- Witness for C5 at a wildly inconsistent 2×2 matrix. -/
theorem consistency_small_n_zero_witness :
    (([[(1 : ℝ), 7], [4, 1]] : List (List ℝ)).length ≤ 2) ∧
    ((calculate_consistency [[(1 : ℝ), 7], [4, 1]] [5, 9]).ci = 0 ∧
      (calculate_consistency [[(1 : ℝ), 7], [4, 1]] [5, 9]).cr = 0) :=
  ⟨by simp, consistency_small_n_zero _ _ (by simp)⟩

/-- Counterexample for C4: at the matrix `[[1, 1], [1, 1]]` with the
degenerate weight vector `[0, 1]`, `calculate_consistency` does not
fail; it returns a numeric record whose CI and CR are `0` (in Python
the zero-weight division only emits a numpy warning and an `inf`
lambda value — no exception is raised and the `n <= 2` branch still
sets both indices to `0`). -/
theorem calculate_consistency_zero_weight_result :
    (calculate_consistency [[(1 : ℝ), 1], [1, 1]] [0, 1]).ci = 0 ∧
      (calculate_consistency [[(1 : ℝ), 1], [1, 1]] [0, 1]).cr = 0 := by
  simp only [calculate_consistency]
  rw [if_pos (by simp)]
  exact ⟨rfl, rfl⟩

/-- C4 amended: when some weight component is zero the consistency
analysis does not fail with an error; the division is performed anyway
(numpy produces `inf`/`nan` values without raising) and a numeric
result is returned, whose CI and CR fields are still produced by the
ordinary formulas from the (possibly non-finite) `lambda_max`. -/
theorem calculate_consistency_zero_weight_no_failure
    (m : List (List ℝ)) (w : List ℝ)
    (hzero : ∃ i < w.length, w.getD i 1 = 0) (hn : 2 < m.length) :
    (calculate_consistency m w).ci =
      ((calculate_consistency m w).lambda_max - (m.length : ℝ)) /
        ((m.length : ℝ) - 1) ∧
    (calculate_consistency m w).cr =
      (calculate_consistency m w).ci / random_index_get m.length := by
  have hri := random_index_get_pos m.length hn
  simp only [calculate_consistency]
  rw [if_neg (by omega), if_pos hri]
  exact ⟨rfl, rfl⟩

/-- Witness for the amended C4 at a 3×3 matrix with weight vector
`[0, 1, 1]`. -/
theorem calculate_consistency_zero_weight_no_failure_witness :
    (∃ i < ([(0 : ℝ), 1, 1] : List ℝ).length,
      ([(0 : ℝ), 1, 1] : List ℝ).getD i 1 = 0) ∧
    (2 < ([[(1 : ℝ), 2, 3], [4, 5, 6], [7, 8, 9]] :
      List (List ℝ)).length) ∧
    ((calculate_consistency [[(1 : ℝ), 2, 3], [4, 5, 6], [7, 8, 9]]
        [0, 1, 1]).ci =
      ((calculate_consistency [[(1 : ℝ), 2, 3], [4, 5, 6], [7, 8, 9]]
          [0, 1, 1]).lambda_max - (3 : ℕ)) / ((3 : ℕ) - 1) ∧
     (calculate_consistency [[(1 : ℝ), 2, 3], [4, 5, 6], [7, 8, 9]]
        [0, 1, 1]).cr =
      (calculate_consistency [[(1 : ℝ), 2, 3], [4, 5, 6], [7, 8, 9]]
          [0, 1, 1]).ci / random_index_get 3) :=
  ⟨⟨0, by simp, rfl⟩, by simp,
    calculate_consistency_zero_weight_no_failure _ _
      ⟨0, by simp, rfl⟩ (by simp)⟩

/-! ### Claim theorems: weight estimation -/

/-- C2: for every square matrix (`n ≥ 1`) with strictly positive
entries, both `geometric_mean_method` and `power_method` (at the
source's default arguments) return a weight vector of length `n` whose
entries sum to 1 within `1e-9` (in exact real arithmetic the sum is
exactly 1). -/
theorem weight_methods_sum_to_one (m : List (List ℝ)) (n : ℕ)
    (hn : m.length = n) (h1 : 1 ≤ n)
    (hsq : ∀ row ∈ m, row.length = n)
    (hpos : ∀ row ∈ m, ∀ x ∈ row, 0 < x) :
    (∃ w, geometric_mean_method m = .ok w ∧ w.length = n ∧
      |w.sum - 1| < 1e-9) ∧
    (∃ v, power_method m 100 (1e-6) = .ok v ∧ v.length = n ∧
      |v.sum - 1| < 1e-9) := by
  obtain ⟨w, hw, hwl, _, hws⟩ := geometric_mean_ok m n hn h1 hpos
  obtain ⟨v, hv, hvl, _, hvs⟩ :=
    power_method_ok m n hn hsq hpos h1 100 (by norm_num) (1e-6)
  exact ⟨⟨w, hw, hwl, by rw [hws]; norm_num⟩,
    ⟨v, hv, hvl, by rw [hvs]; norm_num⟩⟩

/-- Witness for C2 at the consistent 2×2 matrix `[[1, 2], [1/2, 1]]`. -/
theorem weight_methods_sum_to_one_witness :
    (([[(1 : ℝ), 2], [1 / 2, 1]] : List (List ℝ)).length = 2) ∧
    (1 ≤ 2) ∧
    (∀ row ∈ ([[(1 : ℝ), 2], [1 / 2, 1]] : List (List ℝ)),
      row.length = 2) ∧
    (∀ row ∈ ([[(1 : ℝ), 2], [1 / 2, 1]] : List (List ℝ)),
      ∀ x ∈ row, 0 < x) ∧
    ((∃ w, geometric_mean_method [[(1 : ℝ), 2], [1 / 2, 1]] = .ok w ∧
        w.length = 2 ∧ |w.sum - 1| < 1e-9) ∧
     (∃ v, power_method [[(1 : ℝ), 2], [1 / 2, 1]] 100 (1e-6) = .ok v ∧
        v.length = 2 ∧ |v.sum - 1| < 1e-9)) :=
  ⟨by simp, by norm_num, by simp,
    by intro row hrow x hx; fin_cases hrow <;> fin_cases hx <;> norm_num,
    weight_methods_sum_to_one _ 2 (by simp) (by norm_num) (by simp)
      (by intro row hrow x hx; fin_cases hrow <;> fin_cases hx <;> norm_num)⟩

/-- Counterexample for C3: on the matrix `[[1, 0], [1, 1]]`, which
contains a zero entry, `geometric_mean_method` does not fail with any
error — it returns the weight vector `[0, 1]` (the row containing the
zero gets row product 0, hence geometric mean 0). -/
theorem geometric_mean_zero_entry_returns_vector :
    geometric_mean_method [[(1 : ℝ), 0], [1, 1]] = .ok [0, 1] := by
  rw [geometric_mean_eq _ (by simp)]
  norm_num [Real.zero_rpow, Real.one_rpow]

/-- C3 amended: `geometric_mean_method` performs no positivity check.
For every non-empty square input matrix — including those with zero or
negative entries — it raises no error and returns a numeric vector of
length `n` (rows with product 0 get weight 0; for negative row
products numpy would produce NaN entries, still without raising). -/
theorem geometric_mean_no_positivity_check (m : List (List ℝ))
    (hne : m.length ≠ 0) (hsq : ∀ row ∈ m, row.length = m.length)
    (hbad : ∃ row ∈ m, ∃ x ∈ row, x ≤ 0) :
    ∃ v, geometric_mean_method m = .ok v ∧ v.length = m.length :=
  geometric_mean_total m hne

/-- Witness for the amended C3 at `[[1, 0], [1, 1]]`. -/
theorem geometric_mean_no_positivity_check_witness :
    (([[(1 : ℝ), 0], [1, 1]] : List (List ℝ)).length ≠ 0) ∧
    (∀ row ∈ ([[(1 : ℝ), 0], [1, 1]] : List (List ℝ)),
      row.length = ([[(1 : ℝ), 0], [1, 1]] : List (List ℝ)).length) ∧
    (∃ row ∈ ([[(1 : ℝ), 0], [1, 1]] : List (List ℝ)),
      ∃ x ∈ row, x ≤ 0) ∧
    (∃ v, geometric_mean_method [[(1 : ℝ), 0], [1, 1]] = .ok v ∧
      v.length = ([[(1 : ℝ), 0], [1, 1]] : List (List ℝ)).length) :=
  ⟨by simp, by simp, ⟨[1, 0], by simp, 0, by simp, le_refl 0⟩,
    geometric_mean_no_positivity_check _ (by simp) (by simp)
      ⟨[1, 0], by simp, 0, by simp, le_refl 0⟩⟩

/-- C10: for every square positive matrix (`n ≥ 1`), `power_method`
with any iteration budget `max_iter ≥ 1` returns a normalized vector
(entries summing to 1), while a call with `max_iter = 0` raises an
error, because the loop body that binds `v_new` never runs and the
`return v_new` statement references an unassigned variable. -/
theorem power_method_iteration_budget (m : List (List ℝ)) (n : ℕ)
    (hn : m.length = n) (h1 : 1 ≤ n)
    (hsq : ∀ row ∈ m, row.length = n)
    (hpos : ∀ row ∈ m, ∀ x ∈ row, 0 < x) :
    (∀ (tol : ℝ) (k : ℕ), 1 ≤ k →
      ∃ v, power_method m k tol = .ok v ∧ v.length = n ∧ v.sum = 1) ∧
    (∀ tol : ℝ, power_method m 0 tol =
      .error "cannot access local variable v_new where it is not associated with a value") := by
  refine ⟨fun tol k hk => ?_, fun tol => rfl⟩
  obtain ⟨v, hv, hvl, _, hvs⟩ := power_method_ok m n hn hsq hpos h1 k hk tol
  exact ⟨v, hv, hvl, hvs⟩

/-- Witness for C10 at the 1×1 matrix `[[2]]`, budget 1 vs budget 0. -/
theorem power_method_iteration_budget_witness :
    (([[(2 : ℝ)]] : List (List ℝ)).length = 1) ∧
    (1 ≤ 1) ∧
    (∀ row ∈ ([[(2 : ℝ)]] : List (List ℝ)), row.length = 1) ∧
    (∀ row ∈ ([[(2 : ℝ)]] : List (List ℝ)), ∀ x ∈ row, 0 < x) ∧
    (∃ v, power_method [[(2 : ℝ)]] 1 1 = .ok v ∧ v.length = 1 ∧
      v.sum = 1) ∧
    (power_method [[(2 : ℝ)]] 0 1 =
      .error "cannot access local variable v_new where it is not associated with a value") :=
  ⟨by simp, le_refl 1, by simp, by norm_num,
    (power_method_iteration_budget [[(2 : ℝ)]] 1 (by simp) (le_refl 1)
      (by simp) (by norm_num)).1 1 1 (le_refl 1),
    (power_method_iteration_budget [[(2 : ℝ)]] 1 (by simp) (le_refl 1)
      (by simp) (by norm_num)).2 1⟩

/-! ### Claim theorems: comparison logic of the validate endpoint -/

lemma zipWith_abs_ne_nil (yw sw : List ℝ) (hyw : yw ≠ [])
    (hsw : sw ≠ []) :
    List.zipWith (fun a b => |a - b|) yw sw ≠ [] := by
  cases yw with
  | nil => exact absurd rfl hyw
  | cons a t =>
    cases sw with
    | nil => exact absurd rfl hsw
    | cons b u => simp

/-- Counterexample for C6: with candidate CR `0` and reference CR `1`,
the code sets `diff_cr = 0` (Python truthiness: `abs(your_cr - sdk_cr)
if your_cr else 0`), so `cr_valid` holds even though the absolute CR
difference `|0 - 1| = 1` is not below the `0.001` tolerance, contrary
to the claimed characterisation of `crValid`. -/
theorem compare_results_zero_cr_counterexample :
    (compare_results [(0.5 : ℝ)] [0.5] 0 1 0 0).cr_valid ∧
      ¬ (|(0 : ℝ) - 1| < 0.001) := by
  constructor
  · simp only [compare_results]
    rw [if_neg (by simp)]
    norm_num
  · norm_num

/-- C6 amended: for equal-length candidate and reference weight
vectors, `weights_valid` holds iff the maximum elementwise absolute
weight difference is strictly below `0.001`, and `is_valid` holds iff
both `weights_valid` and `cr_valid` hold — but `cr_valid` holds iff the
candidate CR is zero (Python falsy, difference short-circuited to 0) or
the absolute CR difference is strictly below `0.001`. -/
theorem compare_results_flags (yw sw : List ℝ)
    (h : yw.length = sw.length) (yc sc yl sl : ℝ) :
    ((compare_results yw sw yc sc yl sl).weights_valid ↔
      maxAbsDiff yw sw < 0.001) ∧
    ((compare_results yw sw yc sc yl sl).cr_valid ↔
      (yc = 0 ∨ |yc - sc| < 0.001)) ∧
    ((compare_results yw sw yc sc yl sl).is_valid ↔
      ((compare_results yw sw yc sc yl sl).weights_valid ∧
        (compare_results yw sw yc sc yl sl).cr_valid)) := by
  refine ⟨?_, ?_, Iff.rfl⟩
  · by_cases hyw : yw = []
    · have hsw : sw = [] := by
        rw [hyw] at h
        exact List.eq_nil_of_length_eq_zero h.symm
      subst hyw
      subst hsw
      simp only [compare_results, maxAbsDiff, listMax]
      norm_num
    · have hsw : sw ≠ [] := by
        intro hs
        rw [hs] at h
        exact hyw (List.eq_nil_of_length_eq_zero h)
      have hne := zipWith_abs_ne_nil yw sw hyw hsw
      simp only [compare_results, maxAbsDiff]
      simp [hyw, hne]
  · by_cases hyc : yc = 0
    · subst hyc
      norm_num [compare_results]
    · simp [compare_results, hyc]

/-- Witness for the amended C6 at matching singleton vectors and equal
CR values `0.02`. -/
theorem compare_results_flags_witness :
    (([(0.5 : ℝ)] : List ℝ).length = ([(0.5 : ℝ)] : List ℝ).length) ∧
    (((compare_results [(0.5 : ℝ)] [0.5] 0.02 0.02 0 0).weights_valid ↔
        maxAbsDiff [(0.5 : ℝ)] [0.5] < 0.001) ∧
      ((compare_results [(0.5 : ℝ)] [0.5] 0.02 0.02 0 0).cr_valid ↔
        ((0.02 : ℝ) = 0 ∨ |(0.02 : ℝ) - 0.02| < 0.001)) ∧
      ((compare_results [(0.5 : ℝ)] [0.5] 0.02 0.02 0 0).is_valid ↔
        ((compare_results [(0.5 : ℝ)] [0.5] 0.02 0.02 0 0).weights_valid ∧
          (compare_results [(0.5 : ℝ)] [0.5] 0.02 0.02 0 0).cr_valid))) :=
  ⟨rfl, compare_results_flags _ _ rfl _ _ _ _⟩

/-- C9: comparing any candidate pair `(w, c)` against the identical
reference pair yields a maximum weight difference of `0` and a passing
verdict. -/
theorem compare_results_roundtrip (w : List ℝ) (c l : ℝ) :
    (compare_results w w c c l l).max_weight_diff = 0 ∧
      (compare_results w w c c l l).is_valid := by
  have hmax : (compare_results w w c c l l).max_weight_diff = 0 := by
    by_cases hw : w = []
    · subst hw
      simp [compare_results]
    · have hne := zipWith_abs_ne_nil w w hw hw
      simp [compare_results, hw, hne, listMax_replicate_zero]
  refine ⟨hmax, ?_⟩
  have hcr : (compare_results w w c c l l).cr_diff = 0 := by
    by_cases hc : c = 0
    · subst hc
      simp [compare_results]
    · simp [compare_results, hc]
  constructor
  · show (compare_results w w c c l l).max_weight_diff < 0.001
    rw [hmax]
    norm_num
  · show (compare_results w w c c l l).cr_diff < 0.001
    rw [hcr]
    norm_num

/-! ### Claim theorems: endpoint input validation and batch behaviour -/

lemma gm_empty_error :
    geometric_mean_method ([] : List (List ℝ)) =
      .error "axis 1 is out of bounds for array of dimension 1" := by
  simp [geometric_mean_method]

lemma vwr_empty_error (items : List String) :
    validate_with_reference ([] : List (List ℝ)) items =
      .error "axis 1 is out of bounds for array of dimension 1" := by
  unfold validate_with_reference
  rw [gm_empty_error]

lemma batch_item_empty_error (its : List String) (yws : List ℝ) (yc : ℝ)
    (nm : String) :
    validate_batch_item
      { matrix := [], items := its, your_weights := yws, your_cr := yc,
        name := nm } =
      .error "axis 1 is out of bounds for array of dimension 1" := by
  unfold validate_batch_item
  rw [vwr_empty_error]

lemma batch_item_ok_of_nonempty (mx : List (List ℝ)) (hmx : mx.length ≠ 0)
    (its : List String) (yws : List ℝ) (yc : ℝ) (nm : String) :
    ∃ entry, validate_batch_item
      { matrix := mx, items := its, your_weights := yws, your_cr := yc,
        name := nm } = .ok entry := by
  obtain ⟨r, hr⟩ := validate_with_reference_ok mx its hmx
  unfold validate_batch_item
  rw [hr]
  exact ⟨_, rfl⟩

/-- Counterexample for C8: a request whose candidate weight vector has
length 2 against a 1×1 matrix — a degenerate input the claim says is
rejected as a client error before the numeric core runs — is not
rejected: the `/validate` handler runs the core and returns a success
response (the code only pre-checks `len(matrix) == 0 or
len(items) == 0`; `zip` silently truncates the mismatched vectors). -/
theorem validate_route_mismatched_length_not_rejected :
    ¬ (validate_route [[(1 : ℝ)]] ["A"] [0.5, 0.5] 0 0).isClientError ∧
      (validate_route [[(1 : ℝ)]] ["A"] [0.5, 0.5] 0 0).isSuccess := by
  obtain ⟨r, hr⟩ := validate_with_reference_ok [[(1 : ℝ)]] ["A"] (by simp)
  have hroute : validate_route [[(1 : ℝ)]] ["A"] [0.5, 0.5] 0 0 =
      .success
        { validation := compare_results [0.5, 0.5] r.weights 0 r.cr 0
            r.lambda_max
          reference := r } := by
    simp only [validate_route]
    rw [if_neg (by simp), hr]
  rw [hroute]
  exact ⟨fun hfalse => hfalse, trivial⟩

/-- C8 amended: the `/validate` entry point rejects a request as a
client error exactly when the matrix or the item list is empty.  No
other degenerate input is pre-checked: zero or negative entries and
mismatched candidate-vector lengths reach the numeric core (and yield a
success response), and inputs on which the core raises surface as
server errors, after the core was invoked. -/
theorem validate_route_clientError_iff (matrix : List (List ℝ))
    (items : List String) (yw : List ℝ) (yc yl : ℝ) :
    (validate_route matrix items yw yc yl).isClientError ↔
      (matrix.length = 0 ∨ items.length = 0) := by
  by_cases hcond : matrix.length = 0 ∨ items.length = 0
  · simp only [validate_route]
    rw [if_pos hcond]
    exact iff_of_true trivial hcond
  · simp only [validate_route]
    rw [if_neg hcond]
    cases hv : validate_with_reference matrix items with
    | error e => exact iff_of_false (fun hfalse => hfalse) hcond
    | ok r => exact iff_of_false (fun hfalse => hfalse) hcond

/-- Concrete batch items used in the C7 counterexample and witness:
a well-formed 1×1 matrix, an empty matrix (on which
`validate_with_reference` raises), and another well-formed one. -/
noncomputable def goodItem1 : BatchItem :=
  { matrix := [[(1 : ℝ)]], items := ["A"], your_weights := [1],
    your_cr := 0, name := "good1" }

/-- The failing batch item: its matrix is empty. -/
noncomputable def badItem : BatchItem :=
  { matrix := [], items := [], your_weights := [], your_cr := 0,
    name := "bad" }

/-- A second well-formed batch item, listed after the failing one. -/
noncomputable def goodItem2 : BatchItem :=
  { matrix := [[(1 : ℝ)]], items := ["B"], your_weights := [1],
    your_cr := 0, name := "good2" }

lemma goodItem1_ok : ∃ entry, validate_batch_item goodItem1 = .ok entry := by
  obtain ⟨r, hr⟩ := validate_with_reference_ok [[(1 : ℝ)]] ["A"] (by simp)
  unfold validate_batch_item goodItem1
  rw [hr]
  exact ⟨_, rfl⟩

lemma badItem_error : validate_batch_item badItem =
    .error "axis 1 is out of bounds for array of dimension 1" := by
  unfold validate_batch_item badItem
  rw [vwr_empty_error]

/-- Counterexample for C7: in a batch whose second matrix is empty
(raising inside `validate_with_reference`), the whole
`/validate-batch` call returns the error response: the first matrix's
already-computed result is discarded and the third matrix — which the
claim says still receives its own validation result — never gets one. -/
theorem validate_batch_abort_example :
    validate_batch [goodItem1, badItem, goodItem2] =
      .error "axis 1 is out of bounds for array of dimension 1" := by
  have hpre : ∀ i ∈ [goodItem1], ∃ entry,
      validate_batch_item i = .ok entry := by
    intro i hi
    rw [List.mem_singleton] at hi
    subst hi
    exact goodItem1_ok
  have hloop := validate_batch_loop_append_error badItem [goodItem2]
    "axis 1 is out of bounds for array of dimension 1" badItem_error
    [goodItem1] hpre
  unfold validate_batch
  rw [show ([goodItem1, badItem, goodItem2] : List BatchItem) =
    [goodItem1] ++ badItem :: [goodItem2] from rfl, hloop]

/-- C7 amended: a failure on one matrix aborts the entire batch.  If
every item before the failing one validates and some item's
`validate_with_reference` raises, the exception propagates to the
single `try`/`except` wrapping the loop and `/validate-batch` returns
an error response carrying that exception: no per-matrix results are
returned, neither for matrices before the failure nor after it. -/
theorem validate_batch_error_aborts (pre : List BatchItem)
    (bad : BatchItem) (post : List BatchItem) (e : String)
    (hpre : ∀ i ∈ pre, ∃ entry, validate_batch_item i = .ok entry)
    (hbad : validate_batch_item bad = .error e) :
    validate_batch (pre ++ bad :: post) = .error e := by
  unfold validate_batch
  rw [validate_batch_loop_append_error bad post e hbad pre hpre]

/-- Witness for the amended C7: one good 1×1 matrix, then an empty
matrix, then another good one. -/
theorem validate_batch_error_aborts_witness :
    (∀ i ∈ [goodItem1], ∃ entry, validate_batch_item i = .ok entry) ∧
    (validate_batch_item badItem =
      .error "axis 1 is out of bounds for array of dimension 1") ∧
    (validate_batch ([goodItem1] ++ badItem :: [goodItem2]) =
      .error "axis 1 is out of bounds for array of dimension 1") := by
  have hpre : ∀ i ∈ [goodItem1], ∃ entry,
      validate_batch_item i = .ok entry := by
    intro i hi
    rw [List.mem_singleton] at hi
    subst hi
    exact goodItem1_ok
  exact ⟨hpre, badItem_error,
    validate_batch_error_aborts _ _ _ _ hpre badItem_error⟩
